import Mathlib

/-!
Verification of the thermal frame calibration and spatial query engine of the
Tiny-1C Python bindings, shallowly embedded in Lean 4.

The embedding follows `examples/tiny_thermal_camera_wrapper.py`
(class `TinyThermalCamera`).  The native extension module
`tiny_thermal_camera` (class `ThermalCamera`, class `TemperatureProcessor`,
function `temp_to_celsius`) is not part of the visible Python sources; where a
wrapper method delegates to it, the delegate is modelled from the spec and its
doc comment says so.

A raw thermal frame is a row-major matrix of unsigned 16-bit counts, embedded
as `List (List Nat)`; Celsius values are embedded as `ℚ`.  Functions of the
wrapper that call the external conversion `tiny_thermal_camera.temp_to_celsius`
take the conversion as an explicit argument `t2c : Nat → ℚ`.
-/

/-- A raw thermal frame: row-major matrix of unsigned 16-bit counts. -/
abbrev RawFrame := List (List Nat)

/-- A visible-light image frame (8-bit channels). -/
abbrev ImgFrame := List (List Nat)

/-- A Celsius matrix, the result of element-wise calibration. -/
abbrev CFrame := List (List ℚ)

/-- Frame height: number of rows (`temp_frame.shape[0]`). -/
def frameHeight (f : RawFrame) : Nat := f.length

/-- Frame width: length of a row (`temp_frame.shape[1]`). -/
def frameWidth (f : RawFrame) : Nat := (f.headD []).length

/-- Total number of elements (`ndarray.size`). -/
def frameSize (f : List (List Nat)) : Nat := (f.map List.length).sum

/-- Entry of a Celsius matrix at pixel column `x`, row `y`. -/
def entryQ (c : CFrame) (x y : Nat) : ℚ := (c.getD y []).getD x 0

/-- `np.max` over a flattened list: fold of `max`, 0 on the empty list
(where numpy would raise). -/
def maxOf : List ℚ → ℚ
  | [] => 0
  | a :: r => r.foldl max a

/-- `np.min` over a flattened list: fold of `min`, 0 on the empty list
(where numpy would raise). -/
def minOf : List ℚ → ℚ
  | [] => 0
  | a :: r => r.foldl min a

/-- `np.argmax` over a flattened (row-major) list: index of the first
occurrence of the maximum value. -/
def argmaxIdx (l : List ℚ) : Nat := l.findIdx (fun v => decide (v = maxOf l))

/-- `np.argmin` over a flattened (row-major) list: index of the first
occurrence of the minimum value. -/
def argminIdx (l : List ℚ) : Nat := l.findIdx (fun v => decide (v = minOf l))

/-- `TinyThermalCamera.get_temperature_celsius`:
`np.vectorize(tiny_thermal_camera.temp_to_celsius)(temp_frame)`, the
element-wise application of the calibration function to the raw matrix. -/
def get_temperature_celsius (t2c : Nat → ℚ) (f : RawFrame) : CFrame :=
  f.map (fun row => row.map t2c)

/-- `TinyThermalCamera.find_hotspot`: converts the frame to Celsius, takes
`np.argmax` over the flattened matrix, unravels the flat index to
`(row, col) = (y, x)` and returns `((x, y), value)`. -/
def find_hotspot (t2c : Nat → ℚ) (f : RawFrame) : (Nat × Nat) × ℚ :=
  let c := get_temperature_celsius t2c f
  let flat := c.flatten
  let idx := argmaxIdx flat
  let w := frameWidth f
  ((idx % w, idx / w), flat.getD idx 0)

/-- `TinyThermalCamera.find_coldspot`: converts the frame to Celsius, takes
`np.argmin` over the flattened matrix, unravels the flat index to
`(row, col) = (y, x)` and returns `((x, y), value)`. -/
def find_coldspot (t2c : Nat → ℚ) (f : RawFrame) : (Nat × Nat) × ℚ :=
  let c := get_temperature_celsius t2c f
  let flat := c.flatten
  let idx := argminIdx flat
  let w := frameWidth f
  ((idx % w, idx / w), flat.getD idx 0)

/-- The fields of the dict returned by
`TinyThermalCamera.get_temperature_stats` (the standard deviation,
irrational in general, is not needed by any property and is omitted). -/
structure TempStats where
  min : ℚ
  max : ℚ
  mean : ℚ
  median : ℚ
  range : ℚ
deriving DecidableEq

/-- `np.median`: middle element of the sorted data, or the mean of the two
middle elements for an even count. -/
def medianOf (l : List ℚ) : ℚ :=
  let s := l.mergeSort (fun a b => decide (a ≤ b))
  let n := s.length
  if n % 2 = 1 then s.getD (n / 2) 0
  else (s.getD (n / 2 - 1) 0 + s.getD (n / 2) 0) / 2

/-- `TinyThermalCamera.get_temperature_stats`: full-frame statistics of the
Celsius matrix. -/
def get_temperature_stats (t2c : Nat → ℚ) (f : RawFrame) : TempStats :=
  let flat := (get_temperature_celsius t2c f).flatten
  { min := minOf flat
    max := maxOf flat
    mean := flat.sum / flat.length
    median := medianOf flat
    range := maxOf flat - minOf flat }

/-! ### Elementary facts about `maxOf`, `minOf` and the argmax/argmin scan -/

theorem le_foldl_max (r : List ℚ) (a : ℚ) : a ≤ r.foldl max a := by
  induction r generalizing a with
  | nil => exact le_refl a
  | cons b r ih => exact le_trans (le_max_left a b) (ih (max a b))

theorem mem_le_foldl_max (r : List ℚ) (a x : ℚ) (hx : x ∈ r) :
    x ≤ r.foldl max a := by
  induction r generalizing a with
  | nil => cases hx
  | cons b r ih =>
    rcases List.mem_cons.mp hx with h | h
    · subst h
      exact le_trans (le_max_right a x) (le_foldl_max r (max a x))
    · exact ih (max a b) h

theorem foldl_max_mem (r : List ℚ) (a : ℚ) : r.foldl max a ∈ a :: r := by
  induction r generalizing a with
  | nil => exact List.mem_singleton.mpr rfl
  | cons b r ih =>
    have h := ih (max a b)
    rcases List.mem_cons.mp h with h | h
    · rcases max_choice a b with hm | hm
      · exact List.mem_cons.mpr (Or.inl (h.trans hm))
      · exact List.mem_cons.mpr (Or.inr (List.mem_cons.mpr (Or.inl (h.trans hm))))
    · exact List.mem_cons.mpr (Or.inr (List.mem_cons.mpr (Or.inr h)))

theorem le_maxOf {l : List ℚ} {x : ℚ} (hx : x ∈ l) : x ≤ maxOf l := by
  cases l with
  | nil => cases hx
  | cons a r =>
    rcases List.mem_cons.mp hx with h | h
    · subst h; exact le_foldl_max r x
    · exact mem_le_foldl_max r a x h

theorem maxOf_mem {l : List ℚ} (h : l ≠ []) : maxOf l ∈ l := by
  cases l with
  | nil => exact absurd rfl h
  | cons a r => exact foldl_max_mem r a

theorem foldl_min_le (r : List ℚ) (a : ℚ) : r.foldl min a ≤ a := by
  induction r generalizing a with
  | nil => exact le_refl a
  | cons b r ih => exact le_trans (ih (min a b)) (min_le_left a b)

theorem foldl_min_le_mem (r : List ℚ) (a x : ℚ) (hx : x ∈ r) :
    r.foldl min a ≤ x := by
  induction r generalizing a with
  | nil => cases hx
  | cons b r ih =>
    rcases List.mem_cons.mp hx with h | h
    · subst h
      exact le_trans (foldl_min_le r (min a x)) (min_le_right a x)
    · exact ih (min a b) h

theorem foldl_min_mem (r : List ℚ) (a : ℚ) : r.foldl min a ∈ a :: r := by
  induction r generalizing a with
  | nil => exact List.mem_singleton.mpr rfl
  | cons b r ih =>
    have h := ih (min a b)
    rcases List.mem_cons.mp h with h | h
    · rcases min_choice a b with hm | hm
      · exact List.mem_cons.mpr (Or.inl (h.trans hm))
      · exact List.mem_cons.mpr (Or.inr (List.mem_cons.mpr (Or.inl (h.trans hm))))
    · exact List.mem_cons.mpr (Or.inr (List.mem_cons.mpr (Or.inr h)))

theorem minOf_le {l : List ℚ} {x : ℚ} (hx : x ∈ l) : minOf l ≤ x := by
  cases l with
  | nil => cases hx
  | cons a r =>
    rcases List.mem_cons.mp hx with h | h
    · subst h; exact foldl_min_le r x
    · exact foldl_min_le_mem r a x h

theorem minOf_mem {l : List ℚ} (h : l ≠ []) : minOf l ∈ l := by
  cases l with
  | nil => exact absurd rfl h
  | cons a r => exact foldl_min_mem r a

theorem argmaxIdx_lt_length {l : List ℚ} (h : l ≠ []) :
    argmaxIdx l < l.length := by
  apply List.findIdx_lt_length_of_exists
  exact ⟨maxOf l, maxOf_mem h, by simp⟩

theorem getD_argmaxIdx {l : List ℚ} (h : l ≠ []) :
    l.getD (argmaxIdx l) 0 = maxOf l := by
  have hlt : argmaxIdx l < l.length := argmaxIdx_lt_length h
  rw [List.getD_eq_getElem _ 0 hlt]
  have := List.findIdx_getElem (w := hlt)
  exact of_decide_eq_true this

theorem argmaxIdx_le {l : List ℚ} {i : Nat} (hi : i < l.length)
    (h : l.getD i 0 = maxOf l) : argmaxIdx l ≤ i := by
  by_contra hcon
  push_neg at hcon
  have := List.not_of_lt_findIdx hcon
  rw [List.getD_eq_getElem _ 0 hi] at h
  simp [h] at this

theorem argminIdx_lt_length {l : List ℚ} (h : l ≠ []) :
    argminIdx l < l.length := by
  apply List.findIdx_lt_length_of_exists
  exact ⟨minOf l, minOf_mem h, by simp⟩

theorem getD_argminIdx {l : List ℚ} (h : l ≠ []) :
    l.getD (argminIdx l) 0 = minOf l := by
  have hlt : argminIdx l < l.length := argminIdx_lt_length h
  rw [List.getD_eq_getElem _ 0 hlt]
  have := List.findIdx_getElem (w := hlt)
  exact of_decide_eq_true this

theorem argminIdx_le {l : List ℚ} {i : Nat} (hi : i < l.length)
    (h : l.getD i 0 = minOf l) : argminIdx l ≤ i := by
  by_contra hcon
  push_neg at hcon
  have := List.not_of_lt_findIdx hcon
  rw [List.getD_eq_getElem _ 0 hi] at h
  simp [h] at this

/-! ### Row-major flattening of a rectangular matrix -/

/-- All rows of a Celsius matrix have length `w` (numpy 2-D arrays are
rectangular by construction). -/
def RectQ (w : Nat) (c : CFrame) : Prop := ∀ r ∈ c, r.length = w

theorem flatten_length_of_rect {w : Nat} {c : CFrame} (h : RectQ w c) :
    c.flatten.length = c.length * w := by
  induction c with
  | nil => simp
  | cons r rest ih =>
    have hr : r.length = w := h r (List.mem_cons_self r rest)
    have hrest : RectQ w rest := fun r' hr' => h r' (List.mem_cons_of_mem r hr')
    simp [List.flatten_cons, List.length_append, hr, ih hrest, Nat.succ_mul,
      Nat.add_comm]

theorem flatten_getD_of_rect {w : Nat} {c : CFrame} (h : RectQ w c)
    {x y : Nat} (hx : x < w) (hy : y < c.length) :
    c.flatten.getD (y * w + x) 0 = entryQ c x y := by
  induction c generalizing y with
  | nil => cases hy
  | cons r rest ih =>
    have hr : r.length = w := h r (List.mem_cons_self r rest)
    have hrest : RectQ w rest := fun r' hr' => h r' (List.mem_cons_of_mem r hr')
    cases y with
    | zero =>
      have hxr : x < r.length := by rw [hr]; exact hx
      simp only [List.flatten_cons, Nat.zero_mul, Nat.zero_add]
      rw [List.getD_append _ _ _ _ hxr]
      rfl
    | succ y =>
      have hy' : y < rest.length := Nat.lt_of_succ_lt_succ hy
      have hidx : r.length ≤ (y + 1) * w + x := by
        rw [hr, Nat.succ_mul]
        omega
      simp only [List.flatten_cons]
      rw [List.getD_append_right _ _ _ _ hidx]
      have : (y + 1) * w + x - r.length = y * w + x := by
        rw [hr, Nat.succ_mul]; omega
      rw [this]
      exact ih hrest hy'

theorem entryQ_mem_flatten {w : Nat} {c : CFrame} (h : RectQ w c)
    {x y : Nat} (hx : x < w) (hy : y < c.length) :
    entryQ c x y ∈ c.flatten := by
  have hlen := flatten_length_of_rect h
  have hidx : y * w + x < c.length * w := by
    calc y * w + x < y * w + w := by omega
    _ = (y + 1) * w := by rw [Nat.succ_mul]
    _ ≤ c.length * w := Nat.mul_le_mul_right w hy
  rw [← flatten_getD_of_rect h hx hy]
  rw [List.getD_eq_getElem _ 0 (by rw [hlen]; exact hidx)]
  exact List.getElem_mem _

theorem rect_converted {t2c : Nat → ℚ} {f : RawFrame}
    (hr : ∀ r ∈ f, r.length = frameWidth f) :
    RectQ (frameWidth f) (get_temperature_celsius t2c f) := by
  intro r' hr'
  rcases List.mem_map.mp hr' with ⟨r, hrf, hmap⟩
  rw [← hmap, List.length_map]
  exact hr r hrf

/-- Flat index `i ≤ i'` with both residues below `w` implies row-major lex
order of the unravelled coordinates. -/
theorem lex_of_flat_le {w x x' y y' : Nat} (_hx : x < w) (hx' : x' < w)
    (h : y * w + x ≤ y' * w + x') : y < y' ∨ (y = y' ∧ x ≤ x') := by
  rcases Nat.lt_trichotomy y y' with hy | hy | hy
  · exact Or.inl hy
  · subst hy
    right
    exact ⟨rfl, by omega⟩
  · exfalso
    have h1 : (y' + 1) * w ≤ y * w := Nat.mul_le_mul_right w hy
    rw [Nat.succ_mul] at h1
    omega

theorem flat_idx_lt {w x y H : Nat} (hx : x < w) (hy : y < H) :
    y * w + x < H * w := by
  calc y * w + x < y * w + w := by omega
  _ = (y + 1) * w := by rw [Nat.succ_mul]
  _ ≤ H * w := Nat.mul_le_mul_right w hy

/-- Full specification of `find_hotspot` on a non-empty rectangular frame:
the returned location is in bounds, holds the returned value, that value is
the global maximum of the Celsius matrix, and the location is the first
occurrence of the maximum in row-major order. -/
theorem hotspot_spec (t2c : Nat → ℚ) (f : RawFrame)
    (hw : 0 < frameWidth f) (hh : 0 < f.length)
    (hr : ∀ r ∈ f, r.length = frameWidth f) :
    (find_hotspot t2c f).1.1 < frameWidth f ∧
    (find_hotspot t2c f).1.2 < f.length ∧
    entryQ (get_temperature_celsius t2c f) (find_hotspot t2c f).1.1
      (find_hotspot t2c f).1.2 = (find_hotspot t2c f).2 ∧
    (∀ x y, x < frameWidth f → y < f.length →
      entryQ (get_temperature_celsius t2c f) x y ≤ (find_hotspot t2c f).2) ∧
    (∀ x y, x < frameWidth f → y < f.length →
      entryQ (get_temperature_celsius t2c f) x y = (find_hotspot t2c f).2 →
      (find_hotspot t2c f).1.2 < y ∨
        ((find_hotspot t2c f).1.2 = y ∧ (find_hotspot t2c f).1.1 ≤ x)) := by
  have hcrect : RectQ (frameWidth f) (get_temperature_celsius t2c f) :=
    rect_converted hr
  have hclen : (get_temperature_celsius t2c f).length = f.length :=
    List.length_map _ _
  have hLlen : (get_temperature_celsius t2c f).flatten.length
      = f.length * frameWidth f := by
    rw [flatten_length_of_rect hcrect, hclen]
  have hL0 : 0 < (get_temperature_celsius t2c f).flatten.length := by
    rw [hLlen]; exact Nat.mul_pos hh hw
  have hLne : (get_temperature_celsius t2c f).flatten ≠ [] :=
    List.length_pos.mp hL0
  have hfh : find_hotspot t2c f =
      ((argmaxIdx (get_temperature_celsius t2c f).flatten % frameWidth f,
        argmaxIdx (get_temperature_celsius t2c f).flatten / frameWidth f),
       (get_temperature_celsius t2c f).flatten.getD
         (argmaxIdx (get_temperature_celsius t2c f).flatten) 0) := rfl
  rw [hfh]
  have hidx : argmaxIdx (get_temperature_celsius t2c f).flatten
      < (get_temperature_celsius t2c f).flatten.length :=
    argmaxIdx_lt_length hLne
  have hxlt : argmaxIdx (get_temperature_celsius t2c f).flatten % frameWidth f
      < frameWidth f := Nat.mod_lt _ hw
  have hylt : argmaxIdx (get_temperature_celsius t2c f).flatten / frameWidth f
      < f.length := by
    rw [Nat.div_lt_iff_lt_mul hw, ← hLlen]
    exact hidx
  have hflat : (argmaxIdx (get_temperature_celsius t2c f).flatten / frameWidth f)
        * frameWidth f
      + argmaxIdx (get_temperature_celsius t2c f).flatten % frameWidth f
      = argmaxIdx (get_temperature_celsius t2c f).flatten := by
    rw [Nat.mul_comm]
    exact Nat.div_add_mod _ _
  have hval : (get_temperature_celsius t2c f).flatten.getD
      (argmaxIdx (get_temperature_celsius t2c f).flatten) 0
      = maxOf (get_temperature_celsius t2c f).flatten := getD_argmaxIdx hLne
  have hentry : entryQ (get_temperature_celsius t2c f)
      (argmaxIdx (get_temperature_celsius t2c f).flatten % frameWidth f)
      (argmaxIdx (get_temperature_celsius t2c f).flatten / frameWidth f)
      = (get_temperature_celsius t2c f).flatten.getD
          (argmaxIdx (get_temperature_celsius t2c f).flatten) 0 := by
    have h := flatten_getD_of_rect hcrect hxlt (by rw [hclen]; exact hylt)
    rw [hflat] at h
    exact h.symm
  refine ⟨hxlt, hylt, hentry, ?_, ?_⟩
  · intro x y hx hy
    simp only
    rw [hval]
    exact le_maxOf (entryQ_mem_flatten hcrect hx (by rw [hclen]; exact hy))
  · intro x y hx hy hveq
    simp only at hveq ⊢
    have hi' : y * frameWidth f + x
        < (get_temperature_celsius t2c f).flatten.length := by
      rw [hLlen]; exact flat_idx_lt hx hy
    have hgd : (get_temperature_celsius t2c f).flatten.getD
        (y * frameWidth f + x) 0
        = maxOf (get_temperature_celsius t2c f).flatten := by
      rw [flatten_getD_of_rect hcrect hx (by rw [hclen]; exact hy), hveq, hval]
    have hle : argmaxIdx (get_temperature_celsius t2c f).flatten
        ≤ y * frameWidth f + x := argmaxIdx_le hi' hgd
    exact lex_of_flat_le hxlt hx (by rw [hflat]; exact hle)

/-- Full specification of `find_coldspot` on a non-empty rectangular frame:
the returned location is in bounds, holds the returned value, that value is
the global minimum of the Celsius matrix, and the location is the first
occurrence of the minimum in row-major order. -/
theorem coldspot_spec (t2c : Nat → ℚ) (f : RawFrame)
    (hw : 0 < frameWidth f) (hh : 0 < f.length)
    (hr : ∀ r ∈ f, r.length = frameWidth f) :
    (find_coldspot t2c f).1.1 < frameWidth f ∧
    (find_coldspot t2c f).1.2 < f.length ∧
    entryQ (get_temperature_celsius t2c f) (find_coldspot t2c f).1.1
      (find_coldspot t2c f).1.2 = (find_coldspot t2c f).2 ∧
    (∀ x y, x < frameWidth f → y < f.length →
      (find_coldspot t2c f).2 ≤ entryQ (get_temperature_celsius t2c f) x y) ∧
    (∀ x y, x < frameWidth f → y < f.length →
      entryQ (get_temperature_celsius t2c f) x y = (find_coldspot t2c f).2 →
      (find_coldspot t2c f).1.2 < y ∨
        ((find_coldspot t2c f).1.2 = y ∧ (find_coldspot t2c f).1.1 ≤ x)) := by
  have hcrect : RectQ (frameWidth f) (get_temperature_celsius t2c f) :=
    rect_converted hr
  have hclen : (get_temperature_celsius t2c f).length = f.length :=
    List.length_map _ _
  have hLlen : (get_temperature_celsius t2c f).flatten.length
      = f.length * frameWidth f := by
    rw [flatten_length_of_rect hcrect, hclen]
  have hL0 : 0 < (get_temperature_celsius t2c f).flatten.length := by
    rw [hLlen]; exact Nat.mul_pos hh hw
  have hLne : (get_temperature_celsius t2c f).flatten ≠ [] :=
    List.length_pos.mp hL0
  have hfh : find_coldspot t2c f =
      ((argminIdx (get_temperature_celsius t2c f).flatten % frameWidth f,
        argminIdx (get_temperature_celsius t2c f).flatten / frameWidth f),
       (get_temperature_celsius t2c f).flatten.getD
         (argminIdx (get_temperature_celsius t2c f).flatten) 0) := rfl
  rw [hfh]
  have hidx : argminIdx (get_temperature_celsius t2c f).flatten
      < (get_temperature_celsius t2c f).flatten.length :=
    argminIdx_lt_length hLne
  have hxlt : argminIdx (get_temperature_celsius t2c f).flatten % frameWidth f
      < frameWidth f := Nat.mod_lt _ hw
  have hylt : argminIdx (get_temperature_celsius t2c f).flatten / frameWidth f
      < f.length := by
    rw [Nat.div_lt_iff_lt_mul hw, ← hLlen]
    exact hidx
  have hflat : (argminIdx (get_temperature_celsius t2c f).flatten / frameWidth f)
        * frameWidth f
      + argminIdx (get_temperature_celsius t2c f).flatten % frameWidth f
      = argminIdx (get_temperature_celsius t2c f).flatten := by
    rw [Nat.mul_comm]
    exact Nat.div_add_mod _ _
  have hval : (get_temperature_celsius t2c f).flatten.getD
      (argminIdx (get_temperature_celsius t2c f).flatten) 0
      = minOf (get_temperature_celsius t2c f).flatten := getD_argminIdx hLne
  have hentry : entryQ (get_temperature_celsius t2c f)
      (argminIdx (get_temperature_celsius t2c f).flatten % frameWidth f)
      (argminIdx (get_temperature_celsius t2c f).flatten / frameWidth f)
      = (get_temperature_celsius t2c f).flatten.getD
          (argminIdx (get_temperature_celsius t2c f).flatten) 0 := by
    have h := flatten_getD_of_rect hcrect hxlt (by rw [hclen]; exact hylt)
    rw [hflat] at h
    exact h.symm
  refine ⟨hxlt, hylt, hentry, ?_, ?_⟩
  · intro x y hx hy
    simp only
    rw [hval]
    exact minOf_le (entryQ_mem_flatten hcrect hx (by rw [hclen]; exact hy))
  · intro x y hx hy hveq
    simp only at hveq ⊢
    have hi' : y * frameWidth f + x
        < (get_temperature_celsius t2c f).flatten.length := by
      rw [hLlen]; exact flat_idx_lt hx hy
    have hgd : (get_temperature_celsius t2c f).flatten.getD
        (y * frameWidth f + x) 0
        = minOf (get_temperature_celsius t2c f).flatten := by
      rw [flatten_getD_of_rect hcrect hx (by rw [hclen]; exact hy), hveq, hval]
    have hle : argminIdx (get_temperature_celsius t2c f).flatten
        ≤ y * frameWidth f + x := argminIdx_le hi' hgd
    exact lex_of_flat_le hxlt hx (by rw [hflat]; exact hle)

/-! ### Claim C1 -/

/-- C1: For every thermal frame (non-empty, as every acquired frame is), the
value returned by `find_hotspot(frame)` equals the `max` field of
`get_temperature_stats(frame)`, and the value returned by
`find_coldspot(frame)` equals its `min` field. -/
theorem hotspot_coldspot_match_stats (t2c : Nat → ℚ) (f : RawFrame)
    (h : (get_temperature_celsius t2c f).flatten ≠ []) :
    (find_hotspot t2c f).2 = (get_temperature_stats t2c f).max ∧
    (find_coldspot t2c f).2 = (get_temperature_stats t2c f).min := by
  constructor
  · exact getD_argmaxIdx h
  · exact getD_argminIdx h

/-- Witness for C1 at the concrete frame `[[1, 2], [3, 0]]` with the raw
values cast to Celsius. -/
theorem hotspot_coldspot_match_stats_witness :
    (get_temperature_celsius (fun n => (n : ℚ)) [[1, 2], [3, 0]]).flatten ≠ [] ∧
    (find_hotspot (fun n => (n : ℚ)) [[1, 2], [3, 0]]).2 =
      (get_temperature_stats (fun n => (n : ℚ)) [[1, 2], [3, 0]]).max ∧
    (find_coldspot (fun n => (n : ℚ)) [[1, 2], [3, 0]]).2 =
      (get_temperature_stats (fun n => (n : ℚ)) [[1, 2], [3, 0]]).min :=
  ⟨by decide,
   (hotspot_coldspot_match_stats (fun n => (n : ℚ)) [[1, 2], [3, 0]]
     (by decide)).1,
   (hotspot_coldspot_match_stats (fun n => (n : ℚ)) [[1, 2], [3, 0]]
     (by decide)).2⟩

/-! ### Claim C3 -/

/-- C3: For every non-empty rectangular frame, `find_hotspot`
(resp. `find_coldspot`) returns the global maximum (resp. minimum) Celsius
value together with its `(x, y)` pixel location, and when several pixels
attain that extreme value the returned location is the first occurrence in
row-major order: lowest `y` first and lowest `x` among equal `y`. -/
theorem hotspot_coldspot_extreme_first_row_major (t2c : Nat → ℚ)
    (f : RawFrame) (hw : 0 < frameWidth f) (hh : 0 < f.length)
    (hr : ∀ r ∈ f, r.length = frameWidth f) :
    ((find_hotspot t2c f).1.1 < frameWidth f ∧
     (find_hotspot t2c f).1.2 < f.length ∧
     entryQ (get_temperature_celsius t2c f) (find_hotspot t2c f).1.1
       (find_hotspot t2c f).1.2 = (find_hotspot t2c f).2 ∧
     (∀ x y, x < frameWidth f → y < f.length →
       entryQ (get_temperature_celsius t2c f) x y ≤ (find_hotspot t2c f).2) ∧
     (∀ x y, x < frameWidth f → y < f.length →
       entryQ (get_temperature_celsius t2c f) x y = (find_hotspot t2c f).2 →
       (find_hotspot t2c f).1.2 < y ∨
         ((find_hotspot t2c f).1.2 = y ∧ (find_hotspot t2c f).1.1 ≤ x))) ∧
    ((find_coldspot t2c f).1.1 < frameWidth f ∧
     (find_coldspot t2c f).1.2 < f.length ∧
     entryQ (get_temperature_celsius t2c f) (find_coldspot t2c f).1.1
       (find_coldspot t2c f).1.2 = (find_coldspot t2c f).2 ∧
     (∀ x y, x < frameWidth f → y < f.length →
       (find_coldspot t2c f).2 ≤ entryQ (get_temperature_celsius t2c f) x y) ∧
     (∀ x y, x < frameWidth f → y < f.length →
       entryQ (get_temperature_celsius t2c f) x y = (find_coldspot t2c f).2 →
       (find_coldspot t2c f).1.2 < y ∨
         ((find_coldspot t2c f).1.2 = y ∧ (find_coldspot t2c f).1.1 ≤ x))) :=
  ⟨hotspot_spec t2c f hw hh hr, coldspot_spec t2c f hw hh hr⟩

/-- Witness for C3 at the concrete frame `[[3, 1], [1, 3]]`, where both the
maximum 3 and the minimum 1 occur twice: the hotspot must be the first
occurrence `(0, 0)` of 3 and the coldspot the first occurrence `(1, 0)` of 1,
so the first-occurrence disjunction applies against the later ties at
`(1, 1)` and `(0, 1)`. -/
theorem hotspot_coldspot_extreme_first_row_major_witness :
    0 < frameWidth [[3, 1], [1, 3]] ∧
    0 < ([[3, 1], [1, 3]] : RawFrame).length ∧
    entryQ (get_temperature_celsius (fun n => (n : ℚ)) [[3, 1], [1, 3]]) 1 1 ≤
      (find_hotspot (fun n => (n : ℚ)) [[3, 1], [1, 3]]).2 ∧
    ((find_hotspot (fun n => (n : ℚ)) [[3, 1], [1, 3]]).1.2 < 1 ∨
      ((find_hotspot (fun n => (n : ℚ)) [[3, 1], [1, 3]]).1.2 = 1 ∧
       (find_hotspot (fun n => (n : ℚ)) [[3, 1], [1, 3]]).1.1 ≤ 1)) ∧
    ((find_coldspot (fun n => (n : ℚ)) [[3, 1], [1, 3]]).1.2 < 1 ∨
      ((find_coldspot (fun n => (n : ℚ)) [[3, 1], [1, 3]]).1.2 = 1 ∧
       (find_coldspot (fun n => (n : ℚ)) [[3, 1], [1, 3]]).1.1 ≤ 0)) :=
  ⟨by decide, by decide,
   (hotspot_coldspot_extreme_first_row_major (fun n => (n : ℚ))
     [[3, 1], [1, 3]] (by decide) (by decide)
     (by decide)).1.2.2.2.1 1 1 (by decide) (by decide),
   (hotspot_coldspot_extreme_first_row_major (fun n => (n : ℚ))
     [[3, 1], [1, 3]] (by decide) (by decide)
     (by decide)).1.2.2.2.2 1 1 (by decide) (by decide) (by decide),
   (hotspot_coldspot_extreme_first_row_major (fun n => (n : ℚ))
     [[3, 1], [1, 3]] (by decide) (by decide)
     (by decide)).2.2.2.2.2 0 1 (by decide) (by decide) (by decide)⟩

/-! ### Calibration converter -/

/-- Modelled from the spec: the native function
`tiny_thermal_camera.temp_to_celsius` is absent from the visible sources.
Per the spec it is a pure, deterministic map from a raw uint16 count to
Celsius defined by device-specific `CalibrationParameters`, monotonic
non-decreasing within the calibrated sub-range, with values outside the
calibrated range clamped to the nearest boundary.  The non-negative gain
makes the in-band monotonicity required by the spec hold by construction. -/
structure CalibrationParameters where
  rawMin : Nat
  rawMax : Nat
  gain : ℚ
  offset : ℚ
  gain_nonneg : 0 ≤ gain

/-- Modelled from the spec: raw count clamped to the calibrated band. -/
def clampRaw (p : CalibrationParameters) (raw : Nat) : Nat :=
  min p.rawMax (max p.rawMin raw)

/-- Modelled from the spec: `temp_to_celsius` as a clamped affine calibration
curve over the calibrated band. -/
def temp_to_celsius (p : CalibrationParameters) (raw : Nat) : ℚ :=
  p.gain * (clampRaw p raw : ℚ) + p.offset

/-! ### Claim C4 -/

/-- C4: the raw-to-Celsius calibration function is monotonic non-decreasing
within the calibrated sub-range — for any two in-range raw uint16 counts
`a ≤ b` the Celsius value of `a` is not greater than that of `b` — and the
frame-wide conversion applies it element-wise, producing a Celsius matrix of
the same shape (same number of rows, same length of each row, each entry the
image of the corresponding raw entry). -/
theorem calibration_monotone_and_elementwise_shape (p : CalibrationParameters)
    (a b : Nat) (hmem : p.rawMin ≤ a) (hab : a ≤ b) (hmax : b ≤ p.rawMax)
    (_hword : b < 2 ^ 16) (f : RawFrame) :
    temp_to_celsius p a ≤ temp_to_celsius p b ∧
    (get_temperature_celsius (temp_to_celsius p) f).length = f.length ∧
    (get_temperature_celsius (temp_to_celsius p) f).map List.length
      = f.map List.length ∧
    (∀ x y, y < f.length → x < (f.getD y []).length →
      ((get_temperature_celsius (temp_to_celsius p) f).getD y []).getD x 0
        = temp_to_celsius p ((f.getD y []).getD x 0)) := by
  refine ⟨?_, List.length_map _ _, ?_, ?_⟩
  · have hca : clampRaw p a = a := by
      unfold clampRaw
      omega
    have hcb : clampRaw p b = b := by
      unfold clampRaw
      omega
    unfold temp_to_celsius
    rw [hca, hcb]
    have hq : (a : ℚ) ≤ (b : ℚ) := by exact_mod_cast hab
    have := mul_le_mul_of_nonneg_left hq p.gain_nonneg
    linarith
  · unfold get_temperature_celsius
    rw [List.map_map]
    apply List.map_congr_left
    intro r _
    exact List.length_map _ _
  · intro x y hy hx
    unfold get_temperature_celsius
    have hgd : (f.map (fun row => row.map (temp_to_celsius p))).getD y []
        = (f.getD y []).map (temp_to_celsius p) := by
      rw [List.getD_eq_getElem _ _ (by rw [List.length_map]; exact hy),
        List.getElem_map, List.getD_eq_getElem _ _ hy]
    rw [hgd, List.getD_eq_getElem _ _ (by rw [List.length_map]; exact hx),
      List.getElem_map, List.getD_eq_getElem _ _ hx]

/-- Witness for C4: a concrete calibration (gain 1/64 K per count, offset
-273.15 shifted to Celsius) applied at raw counts 17480 ≤ 18120 and a ragged
concrete frame. -/
theorem calibration_monotone_and_elementwise_shape_witness :
    (⟨1000, 60000, 1 / 64, -5463 / 20, by norm_num⟩ :
        CalibrationParameters).rawMin ≤ 17480 ∧
    (17480 : Nat) ≤ 18120 ∧
    (18120 : Nat) ≤ (⟨1000, 60000, 1 / 64, -5463 / 20, by norm_num⟩ :
        CalibrationParameters).rawMax ∧
    (18120 : Nat) < 2 ^ 16 ∧
    temp_to_celsius ⟨1000, 60000, 1 / 64, -5463 / 20, by norm_num⟩ 17480 ≤
      temp_to_celsius ⟨1000, 60000, 1 / 64, -5463 / 20, by norm_num⟩ 18120 ∧
    (get_temperature_celsius
        (temp_to_celsius ⟨1000, 60000, 1 / 64, -5463 / 20, by norm_num⟩)
        [[17480, 18120], [17800]]).map List.length
      = ([[17480, 18120], [17800]] : RawFrame).map List.length :=
  ⟨by norm_num, by norm_num, by norm_num, by norm_num,
   (calibration_monotone_and_elementwise_shape
     ⟨1000, 60000, 1 / 64, -5463 / 20, by norm_num⟩ 17480 18120
     (by norm_num) (by norm_num) (by norm_num) (by norm_num)
     [[17480, 18120], [17800]]).1,
   (calibration_monotone_and_elementwise_shape
     ⟨1000, 60000, 1 / 64, -5463 / 20, by norm_num⟩ 17480 18120
     (by norm_num) (by norm_num) (by norm_num) (by norm_num)
     [[17480, 18120], [17800]]).2.2.1⟩

/-! ### Spatial query engine

The native `tiny_thermal_camera.TemperatureProcessor` is absent from the
visible sources; its three query operations are modelled from the spec.
Coordinates are Python ints, embedded as `ℤ` so that negative arguments are
representable. -/

/-- A pixel coordinate is inside the frame: `0 ≤ x < width`, `0 ≤ y < height`. -/
def inBounds (f : RawFrame) (x y : Int) : Prop :=
  0 ≤ x ∧ 0 ≤ y ∧ x < (frameWidth f : Int) ∧ y < (frameHeight f : Int)

instance (f : RawFrame) (x y : Int) : Decidable (inBounds f x y) := by
  unfold inBounds
  infer_instance

/-- Modelled from the spec: `TemperatureProcessor.get_point_temp` — fails
(success flag `false`, no payload) if `(x, y)` is outside the frame bounds,
else returns the Celsius value at that pixel. -/
def get_point_temp (t2c : Nat → ℚ) (f : RawFrame) (x y : Int) : Bool × ℚ :=
  if inBounds f x y then
    (true, t2c ((f.getD y.toNat []).getD x.toNat 0))
  else (false, 0)

/-- Pixels of the `w × h` rectangle whose top-left corner is `(x, y)`,
row-major, converted to Celsius. -/
def rectPixels (t2c : Nat → ℚ) (f : RawFrame) (x y w h : Nat) : List ℚ :=
  ((List.range h).map (fun j =>
    (List.range w).map (fun i =>
      t2c ((f.getD (y + j) []).getD (x + i) 0)))).flatten

/-- Modelled from the spec: `TemperatureProcessor.get_rect_temp` — fails
(success flag `false`, no payload) if `w ≤ 0`, `h ≤ 0`, or the rectangle is
not fully contained in the frame; else returns `(max, min, avg)` over all
pixels of the rectangle, the average being the unweighted arithmetic mean. -/
def get_rect_temp (t2c : Nat → ℚ) (f : RawFrame) (x y w h : Int) :
    Bool × ℚ × ℚ × ℚ :=
  if 0 < w ∧ 0 < h ∧ 0 ≤ x ∧ 0 ≤ y ∧ x + w ≤ (frameWidth f : Int) ∧
      y + h ≤ (frameHeight f : Int) then
    let px := rectPixels t2c f x.toNat y.toNat w.toNat h.toNat
    (true, maxOf px, minOf px, px.sum / px.length)
  else (false, 0, 0, 0)

/-- Modelled from the spec: pixels sampled along the discrete line from
`(x1, y1)` to `(x2, y2)`, inclusive of both endpoints, using a fixed
deterministic integer rasterization rule (a digital differential analyzer
with rounding to the nearest integer; the spec leaves the canonical rule to
the implementation). -/
def linePixels (t2c : Nat → ℚ) (f : RawFrame) (x1 y1 x2 y2 : Int) : List ℚ :=
  let n := max (x2 - x1).natAbs (y2 - y1).natAbs
  (List.range (n + 1)).map (fun i =>
    let xi := x1 + round ((i : ℚ) * ((x2 - x1 : Int) : ℚ) / (n : ℚ))
    let yi := y1 + round ((i : ℚ) * ((y2 - y1 : Int) : ℚ) / (n : ℚ))
    t2c ((f.getD yi.toNat []).getD xi.toNat 0))

/-- Modelled from the spec: `TemperatureProcessor.get_line_temp` — fails
(success flag `false`, no payload) if either endpoint is out of bounds; else
returns `(max, min, avg)` over the pixels sampled along the rasterized line
between the endpoints. -/
def get_line_temp (t2c : Nat → ℚ) (f : RawFrame) (x1 y1 x2 y2 : Int) :
    Bool × ℚ × ℚ × ℚ :=
  if inBounds f x1 y1 ∧ inBounds f x2 y2 then
    let px := linePixels t2c f x1 y1 x2 y2
    (true, maxOf px, minOf px, px.sum / px.length)
  else (false, 0, 0, 0)

/-- `TinyThermalCamera.get_point_temperature`: delegates to
`get_point_temp` and surfaces failure as `None` (`none`). -/
def get_point_temperature (t2c : Nat → ℚ) (f : RawFrame) (x y : Int) :
    Option ℚ :=
  let r := get_point_temp t2c f x y
  if r.1 then some r.2 else none

/-- `TinyThermalCamera.get_area_temperature`: delegates to
`get_rect_temp` and surfaces failure as `None` (`none`). -/
def get_area_temperature (t2c : Nat → ℚ) (f : RawFrame) (x y w h : Int) :
    Option (ℚ × ℚ × ℚ) :=
  let r := get_rect_temp t2c f x y w h
  if r.1 then some r.2 else none

/-- `TinyThermalCamera.get_line_temperature`: delegates to
`get_line_temp` and surfaces failure as `None` (`none`). -/
def get_line_temperature (t2c : Nat → ℚ) (f : RawFrame) (x1 y1 x2 y2 : Int) :
    Option (ℚ × ℚ × ℚ) :=
  let r := get_line_temp t2c f x1 y1 x2 y2
  if r.1 then some r.2 else none

/-! ### Claim C5 -/

/-- C5: every spatial query (point, rectangle, line) whose bounds exceed the
frame — a negative coordinate, or `x + w > width`, or `y + h > height`, or
for single pixels a coordinate at or beyond the frame edge — returns
success = false and no payload: the wrapper surfaces it as `none`. -/
theorem out_of_bounds_queries_return_none (t2c : Nat → ℚ) (f : RawFrame)
    (px py x y w h x1 y1 x2 y2 : Int)
    (hpt : px < 0 ∨ py < 0 ∨ (frameWidth f : Int) ≤ px ∨
      (frameHeight f : Int) ≤ py)
    (hrect : x < 0 ∨ y < 0 ∨ (frameWidth f : Int) < x + w ∨
      (frameHeight f : Int) < y + h)
    (hline : x1 < 0 ∨ y1 < 0 ∨ (frameWidth f : Int) ≤ x1 ∨
      (frameHeight f : Int) ≤ y1 ∨ x2 < 0 ∨ y2 < 0 ∨
      (frameWidth f : Int) ≤ x2 ∨ (frameHeight f : Int) ≤ y2) :
    get_point_temperature t2c f px py = none ∧
    get_area_temperature t2c f x y w h = none ∧
    get_line_temperature t2c f x1 y1 x2 y2 = none := by
  refine ⟨?_, ?_, ?_⟩
  · have hfail : ¬ inBounds f px py := by
      unfold inBounds
      omega
    unfold get_point_temperature get_point_temp
    simp [hfail]
  · have hfail : ¬ (0 < w ∧ 0 < h ∧ 0 ≤ x ∧ 0 ≤ y ∧
        x + w ≤ (frameWidth f : Int) ∧ y + h ≤ (frameHeight f : Int)) := by
      omega
    unfold get_area_temperature get_rect_temp
    simp [hfail]
  · have hfail : ¬ (inBounds f x1 y1 ∧ inBounds f x2 y2) := by
      unfold inBounds
      omega
    unfold get_line_temperature get_line_temp
    simp [hfail]

/-- Witness for C5 on a concrete 4×3 frame: point at `(-1, 0)`, rectangle
`(2, 2, 3, 3)` overreaching the right and bottom edges, line ending at
`(4, 1)` one column past the frame. -/
theorem out_of_bounds_queries_return_none_witness :
    ((-1 : Int) < 0 ∨ (0 : Int) < 0 ∨
      (frameWidth [[20, 20, 20, 20], [20, 90, 20, 20], [20, 20, 20, 20]] : Int) ≤ -1 ∨
      (frameHeight [[20, 20, 20, 20], [20, 90, 20, 20], [20, 20, 20, 20]] : Int) ≤ 0) ∧
    get_point_temperature (fun n => (n : ℚ))
      [[20, 20, 20, 20], [20, 90, 20, 20], [20, 20, 20, 20]] (-1) 0 = none ∧
    get_area_temperature (fun n => (n : ℚ))
      [[20, 20, 20, 20], [20, 90, 20, 20], [20, 20, 20, 20]] 2 2 3 3 = none ∧
    get_line_temperature (fun n => (n : ℚ))
      [[20, 20, 20, 20], [20, 90, 20, 20], [20, 20, 20, 20]] 0 0 4 1 = none :=
  ⟨by decide,
   (out_of_bounds_queries_return_none (fun n => (n : ℚ))
     [[20, 20, 20, 20], [20, 90, 20, 20], [20, 20, 20, 20]]
     (-1) 0 2 2 3 3 0 0 4 1 (by decide) (by decide) (by decide)).1,
   (out_of_bounds_queries_return_none (fun n => (n : ℚ))
     [[20, 20, 20, 20], [20, 90, 20, 20], [20, 20, 20, 20]]
     (-1) 0 2 2 3 3 0 0 4 1 (by decide) (by decide) (by decide)).2.1,
   (out_of_bounds_queries_return_none (fun n => (n : ℚ))
     [[20, 20, 20, 20], [20, 90, 20, 20], [20, 20, 20, 20]]
     (-1) 0 2 2 3 3 0 0 4 1 (by decide) (by decide) (by decide)).2.2⟩

/-! ### Claim C2

The spec's worked example hands the spatial engine an already-Celsius 4×3
matrix, so the calibration applied on top of it is the identity.  Over the
twelve pixels the sum is `11 * 20 + 90 = 310`, hence the full-frame average
is `310 / 12 = 155 / 6 ≈ 25.83`, not approximately `27.5` as the example
states (the max and min and the hotspot location are as stated). -/

/-- Counterexample for C2 as stated: on the example matrix the full-frame
rectangle query succeeds with max 90 and min 20, but the returned average is
`155 / 6`, which differs from `27.5 = 55 / 2` by `5 / 3` — it is not
approximately 27.5. -/
theorem rect_avg_not_27_5_counterexample :
    get_rect_temp (fun n => (n : ℚ))
      [[20, 20, 20, 20], [20, 90, 20, 20], [20, 20, 20, 20]] 0 0 4 3
      = (true, 90, 20, 155 / 6) ∧
    (155 / 6 : ℚ) ≠ 55 / 2 ∧
    |(155 / 6 : ℚ) - 55 / 2| = 5 / 3 := by
  refine ⟨?_, by norm_num, by rw [abs_sub_comm]; norm_num⟩
  unfold get_rect_temp
  rw [if_pos (by decide)]
  have hpx : rectPixels (fun n => (n : ℚ))
      [[20, 20, 20, 20], [20, 90, 20, 20], [20, 20, 20, 20]]
      (Int.toNat 0) (Int.toNat 0) (Int.toNat 4) (Int.toNat 3)
      = [20, 20, 20, 20, 20, 90, 20, 20, 20, 20, 20, 20] := by decide
  rw [hpx]
  refine Prod.ext rfl (Prod.ext (by decide) (Prod.ext (by decide) ?_))
  norm_num

set_option maxRecDepth 8000 in
/-- C2 (amended): for the 4×3 Celsius matrix
`[[20,20,20,20],[20,90,20,20],[20,20,20,20]]`, `find_hotspot` returns
location `(1, 1)` with value 90, and `get_rect_temp` over the full frame
(`x=0, y=0, w=4, h=3`) returns max 90, min 20 and average `155/6 ≈ 25.83`. -/
theorem example_frame_hotspot_and_rect_stats :
    find_hotspot (fun n => (n : ℚ))
      [[20, 20, 20, 20], [20, 90, 20, 20], [20, 20, 20, 20]]
      = ((1, 1), 90) ∧
    get_rect_temp (fun n => (n : ℚ))
      [[20, 20, 20, 20], [20, 90, 20, 20], [20, 20, 20, 20]] 0 0 4 3
      = (true, 90, 20, 155 / 6) := by
  refine ⟨by decide, ?_⟩
  unfold get_rect_temp
  rw [if_pos (by decide)]
  have hpx : rectPixels (fun n => (n : ℚ))
      [[20, 20, 20, 20], [20, 90, 20, 20], [20, 20, 20, 20]]
      (Int.toNat 0) (Int.toNat 0) (Int.toNat 4) (Int.toNat 3)
      = [20, 20, 20, 20, 20, 90, 20, 20, 20, 20, 20, 20] := by decide
  rw [hpx]
  refine Prod.ext rfl (Prod.ext (by decide) (Prod.ext (by decide) ?_))
  norm_num

/-! ### Device session manager and frame acquisition

The native `ThermalCamera` session object is absent from the visible
sources; its lifecycle is modelled from the spec as a three-state machine.
The wrapper layer (`TinyThermalCamera`) is translated from source; its
state is the pair of the native session state and the `_is_initialized`
flag.  Each wrapper operation also returns the list of native device calls
and blocking delays it performs, so that "the device open is not invoked"
and "no internal blocking delay" are expressible. -/

/-- Modelled from the spec: the CameraSession lifecycle state. -/
inductive CamState
  | Closed
  | Opened
  | Streaming
deriving DecidableEq

/-- A native device call or blocking delay performed by a wrapper method. -/
inductive Effect
  | devOpen
  | devClose
  | devStartStream
  | devStopStream
  | sleep (seconds : ℚ)
deriving DecidableEq

/-- Modelled from the spec: `ThermalCamera.is_streaming`. -/
def cam_is_streaming (s : CamState) : Bool := s = CamState.Streaming

/-- Modelled from the spec: `ThermalCamera.open` — Closed → Opened when the
device is available, failure leaving Closed when it is not
(DeviceUnavailable), failure leaving the state unchanged when already
Opened/Streaming (AlreadyOpen). -/
def cam_open (available : Bool) : CamState → Bool × CamState
  | CamState.Closed =>
    if available then (true, CamState.Opened) else (false, CamState.Closed)
  | s => (false, s)

/-- Modelled from the spec: `ThermalCamera.close` — any state → Closed. -/
def cam_close (_ : CamState) : CamState := CamState.Closed

/-- Modelled from the spec: `ThermalCamera.start_stream` —
Opened → Streaming, failure otherwise. -/
def cam_start_stream : CamState → Bool × CamState
  | CamState.Opened => (true, CamState.Streaming)
  | s => (false, s)

/-- Modelled from the spec: `ThermalCamera.stop_stream` —
Streaming → Opened, no-op otherwise. -/
def cam_stop_stream : CamState → CamState
  | CamState.Streaming => CamState.Opened
  | s => s

/-- The state of a `TinyThermalCamera` wrapper object: the native session
state plus the `_is_initialized` flag. -/
structure WState where
  cam : CamState
  isInit : Bool
deriving DecidableEq

/-- Reachability invariant of the wrapper: `_is_initialized` is set exactly
when the native session is not Closed (every wrapper operation preserves
this). -/
def WInv (s : WState) : Prop := s.isInit = true ↔ s.cam ≠ CamState.Closed

instance (s : WState) : Decidable (WInv s) := by
  unfold WInv
  infer_instance

/-- `TinyThermalCamera.open`: returns `True` at once if already initialized;
otherwise calls the native `open` and sets `_is_initialized` on success. -/
def wrapper_open (available : Bool) (s : WState) :
    Bool × WState × List Effect :=
  if s.isInit then (true, s, [])
  else
    let r := cam_open available s.cam
    if r.1 then (true, ⟨r.2, true⟩, [Effect.devOpen])
    else (false, ⟨r.2, false⟩, [Effect.devOpen])

/-- `TinyThermalCamera.close`: if initialized, stops streaming when the
native session is streaming, closes it and clears `_is_initialized`;
otherwise does nothing. -/
def wrapper_close (s : WState) : WState × List Effect :=
  if s.isInit then
    if cam_is_streaming s.cam then
      (⟨cam_close (cam_stop_stream s.cam), false⟩,
        [Effect.devStopStream, Effect.devClose])
    else (⟨cam_close s.cam, false⟩, [Effect.devClose])
  else (s, [])

/-- `TinyThermalCamera.start_streaming`: raises `RuntimeError` when not
initialized; otherwise calls the native `start_stream` and, on success with
`wait_for_stabilization` set (its default is `True`), sleeps 5 seconds
before returning `True`. -/
def start_streaming (wait_for_stabilization : Bool) (s : WState) :
    Except String (Bool × WState × List Effect) :=
  if s.isInit then
    let r := cam_start_stream s.cam
    if r.1 then
      Except.ok (true, ⟨r.2, s.isInit⟩,
        Effect.devStartStream ::
          (if wait_for_stabilization then [Effect.sleep 5] else []))
    else Except.ok (false, ⟨r.2, s.isInit⟩, [Effect.devStartStream])
  else Except.error "Camera not initialized. Call open() first."

/-- Modelled from the spec: `ThermalCamera.get_temperature_frame` — returns
the driver's latest raw frame while Streaming and the zero-size sentinel
otherwise; never blocks. -/
def get_temperature_frame (s : WState) (slot : RawFrame) : RawFrame :=
  if cam_is_streaming s.cam then slot else []

/-- Modelled from the spec: `ThermalCamera.get_image_frame` — same contract
for the optional visible-light frame. -/
def get_image_frame (s : WState) (slot : ImgFrame) : ImgFrame :=
  if cam_is_streaming s.cam then slot else []

/-- `TinyThermalCamera.capture_frame`: raises `RuntimeError` when the native
session is not streaming; otherwise pulls both frames and returns each as
`None` when its size is zero, unchanged otherwise. -/
def capture_frame (s : WState) (tslot : RawFrame) (islot : ImgFrame) :
    Except String (Option RawFrame × Option ImgFrame) :=
  if cam_is_streaming s.cam then
    let t := get_temperature_frame s tslot
    let i := get_image_frame s islot
    Except.ok
      ((if 0 < frameSize t then some t else none),
       (if 0 < frameSize i then some i else none))
  else Except.error "Camera not streaming. Call start_streaming() first."

/-! ### Claim C6

The wrapper's `capture_frame` checks `is_streaming()` first and raises
`RuntimeError` when the session is not streaming, so while the session is
Opened but not Streaming the public acquisition call raises instead of
returning the sentinel; only the native `get_temperature_frame` underneath
(modelled from the spec) returns the zero-size sentinel there. -/

/-- Counterexample for C6 as stated: with the session Opened but not
Streaming, `capture_frame` does not return the empty sentinel without
raising — it raises `RuntimeError("Camera not streaming. ...")`. -/
theorem capture_frame_raises_when_not_streaming_counterexample :
    capture_frame ⟨CamState.Opened, true⟩ [[17480, 17500]] [[128]] ≠
      Except.ok (none, none) ∧
    capture_frame ⟨CamState.Opened, true⟩ [[17480, 17500]] [[128]] =
      Except.error "Camera not streaming. Call start_streaming() first." := by
  have he : capture_frame ⟨CamState.Opened, true⟩ [[17480, 17500]] [[128]] =
      Except.error "Camera not streaming. Call start_streaming() first." := rfl
  exact ⟨by rw [he]; exact fun hcon => Except.noConfusion hcon, he⟩

/-- C6 (amended): while the session is Opened but not Streaming, the native
frame getters return the empty (zero-size) sentinel — never a stale or
partial frame — but the wrapper's `capture_frame` raises a `RuntimeError`
instead of surfacing the absence of data through its return value. -/
theorem acquisition_opened_sentinel_but_capture_raises (s : WState)
    (tslot : RawFrame) (islot : ImgFrame) (h : s.cam = CamState.Opened) :
    get_temperature_frame s tslot = [] ∧
    get_image_frame s islot = [] ∧
    capture_frame s tslot islot =
      Except.error "Camera not streaming. Call start_streaming() first." := by
  have hns : cam_is_streaming s.cam = false := by
    rw [h]; rfl
  refine ⟨?_, ?_, ?_⟩ <;>
    simp [get_temperature_frame, get_image_frame, capture_frame, hns]

/-- Witness for C6 (amended) at the Opened, initialized session and concrete
driver slots. -/
theorem acquisition_opened_sentinel_but_capture_raises_witness :
    (⟨CamState.Opened, true⟩ : WState).cam = CamState.Opened ∧
    get_temperature_frame ⟨CamState.Opened, true⟩ [[17480]] = [] ∧
    capture_frame ⟨CamState.Opened, true⟩ [[17480]] [[128]] =
      Except.error "Camera not streaming. Call start_streaming() first." :=
  ⟨rfl,
   (acquisition_opened_sentinel_but_capture_raises ⟨CamState.Opened, true⟩
     [[17480]] [[128]] rfl).1,
   (acquisition_opened_sentinel_but_capture_raises ⟨CamState.Opened, true⟩
     [[17480]] [[128]] rfl).2.2⟩

/-! ### Claim C7 -/

/-- C7: `close()` takes the session from any (reachable) state to Closed,
stopping streaming first if it is active (the device sees `stop_stream`
before `close`), and is idempotent: calling `close()` twice in succession is
a no-op the second time — no native calls at all — and leaves the state
Closed after both calls. -/
theorem close_any_state_to_closed_idempotent (s : WState) (h : WInv s) :
    (wrapper_close s).1.cam = CamState.Closed ∧
    (wrapper_close s).1.isInit = false ∧
    (cam_is_streaming s.cam = true →
      (wrapper_close s).2 = [Effect.devStopStream, Effect.devClose]) ∧
    wrapper_close (wrapper_close s).1 = ((wrapper_close s).1, []) ∧
    (wrapper_close (wrapper_close s).1).1.cam = CamState.Closed := by
  rcases s with ⟨c, i⟩
  revert h
  cases c <;> cases i <;> decide

/-- Witness for C7 at a Streaming, initialized session. -/
theorem close_any_state_to_closed_idempotent_witness :
    WInv ⟨CamState.Streaming, true⟩ ∧
    (wrapper_close ⟨CamState.Streaming, true⟩).1.cam = CamState.Closed ∧
    (wrapper_close ⟨CamState.Streaming, true⟩).2 =
      [Effect.devStopStream, Effect.devClose] ∧
    wrapper_close (wrapper_close ⟨CamState.Streaming, true⟩).1 =
      ((wrapper_close ⟨CamState.Streaming, true⟩).1, []) :=
  ⟨by decide,
   (close_any_state_to_closed_idempotent ⟨CamState.Streaming, true⟩
     (by decide)).1,
   (close_any_state_to_closed_idempotent ⟨CamState.Streaming, true⟩
     (by decide)).2.2.1 rfl,
   (close_any_state_to_closed_idempotent ⟨CamState.Streaming, true⟩
     (by decide)).2.2.2.1⟩

/-! ### Claim C8 -/

/-- C8: calling `open()` while the session is already Opened or Streaming is
an idempotent no-op (it returns `True`): the underlying device `open` is not
invoked again (no native calls at all) and the session state — in particular
whether it is streaming — is unchanged. -/
theorem open_while_live_is_noop (available : Bool) (s : WState)
    (hinv : WInv s)
    (hlive : s.cam = CamState.Opened ∨ s.cam = CamState.Streaming) :
    wrapper_open available s = (true, s, []) ∧
    Effect.devOpen ∉ (wrapper_open available s).2.2 ∧
    (wrapper_open available s).2.1.cam = s.cam := by
  rcases s with ⟨c, i⟩
  revert hinv hlive
  cases available <;> cases c <;> cases i <;> decide

/-- Witness for C8 at an available device and a Streaming, initialized
session. -/
theorem open_while_live_is_noop_witness :
    WInv ⟨CamState.Streaming, true⟩ ∧
    ((⟨CamState.Streaming, true⟩ : WState).cam = CamState.Opened ∨
     (⟨CamState.Streaming, true⟩ : WState).cam = CamState.Streaming) ∧
    wrapper_open true ⟨CamState.Streaming, true⟩ =
      (true, ⟨CamState.Streaming, true⟩, []) :=
  ⟨by decide, by decide,
   (open_while_live_is_noop true ⟨CamState.Streaming, true⟩ (by decide)
     (by decide)).1⟩

/-! ### Claim C9

`start_streaming` takes `wait_for_stabilization` (default `True`) and, when
the native `start_stream` succeeds with that flag set, executes
`time.sleep(5)` before returning — an internal blocking delay.  Only when
the caller passes `False` does it return as soon as streaming has
started. -/

/-- Counterexample for C9 as stated: with the default
`wait_for_stabilization = True` and an Opened session,
`start_streaming` performs an internal 5-second blocking delay after the
device call instead of returning as soon as streaming has started. -/
theorem start_streaming_default_sleeps_counterexample :
    start_streaming true ⟨CamState.Opened, true⟩ =
      Except.ok (true, ⟨CamState.Streaming, true⟩,
        [Effect.devStartStream, Effect.sleep 5]) ∧
    Effect.sleep 5 ∈ [Effect.devStartStream, Effect.sleep 5] :=
  ⟨rfl, by decide⟩

/-- C9 (amended): `start_streaming` performs no internal blocking delay when
the caller passes `wait_for_stabilization = False` — it returns as soon as
streaming has started — but with the default `wait_for_stabilization = True`
it sleeps 5 seconds internally after streaming starts; the caller controls
the warm-up wait through the flag, not by waiting themselves. -/
theorem start_streaming_delay_controlled_by_flag (s : WState)
    (hinit : s.isInit = true) :
    (∀ b s' eff, start_streaming false s = Except.ok (b, s', eff) →
      ∀ q, Effect.sleep q ∉ eff) ∧
    (s.cam = CamState.Opened →
      start_streaming true s =
        Except.ok (true, ⟨CamState.Streaming, true⟩,
          [Effect.devStartStream, Effect.sleep 5])) := by
  rcases s with ⟨c, i⟩
  simp only at hinit
  subst hinit
  constructor
  · intro b s' eff heq q hmem
    have heff : eff = [Effect.devStartStream] := by
      cases c <;>
        simp only [start_streaming, cam_start_stream, if_true, if_false,
          Bool.false_eq_true, reduceIte, Except.ok.injEq, Prod.mk.injEq]
          at heq <;>
        exact heq.2.2.symm
    rw [heff] at hmem
    simp at hmem
  · intro hc
    simp only at hc
    subst hc
    rfl

/-- Witness for C9 (amended) at an Opened, initialized session: no sleep
with the flag off, the 5-second sleep with the flag on. -/
theorem start_streaming_delay_controlled_by_flag_witness :
    (⟨CamState.Opened, true⟩ : WState).isInit = true ∧
    Effect.sleep 5 ∉ [Effect.devStartStream] ∧
    start_streaming false ⟨CamState.Opened, true⟩ =
      Except.ok (true, ⟨CamState.Streaming, true⟩, [Effect.devStartStream]) ∧
    start_streaming true ⟨CamState.Opened, true⟩ =
      Except.ok (true, ⟨CamState.Streaming, true⟩,
        [Effect.devStartStream, Effect.sleep 5]) :=
  ⟨rfl,
   (start_streaming_delay_controlled_by_flag ⟨CamState.Opened, true⟩
     rfl).1 true ⟨CamState.Streaming, true⟩ [Effect.devStartStream] rfl 5,
   rfl,
   (start_streaming_delay_controlled_by_flag ⟨CamState.Opened, true⟩
     rfl).2 rfl⟩

/-! ### Claim C10 -/

/-- C10: `capture_frame` normalizes the zero-size sentinel at the public
interface, for each of the two returned frames independently: a zero-size
frame is returned as `None`, a frame of positive size is returned unchanged,
and a caller never receives a zero-size array from `capture_frame`. -/
theorem capture_frame_normalizes_empty (s : WState) (t : RawFrame)
    (i : ImgFrame) (o : Option RawFrame × Option ImgFrame)
    (hs : cam_is_streaming s.cam = true)
    (ho : capture_frame s t i = Except.ok o) :
    (frameSize t = 0 → o.1 = none) ∧
    (0 < frameSize t → o.1 = some t) ∧
    (∀ g, o.1 = some g → 0 < frameSize g) ∧
    (frameSize i = 0 → o.2 = none) ∧
    (0 < frameSize i → o.2 = some i) ∧
    (∀ g, o.2 = some g → 0 < frameSize g) := by
  simp only [capture_frame, get_temperature_frame, get_image_frame, hs,
    if_true, Except.ok.injEq] at ho
  subst ho
  refine ⟨?_, ?_, ?_, ?_, ?_, ?_⟩
  · intro h0
    simp only [Nat.lt_irrefl, h0, reduceIte]
  · intro hpos
    simp only [hpos, reduceIte]
  · intro g hg
    by_cases hpos : 0 < frameSize t
    · simp only [hpos, reduceIte] at hg
      rw [← Option.some.inj hg]
      exact hpos
    · simp only [hpos, reduceIte] at hg
      exact Option.noConfusion hg
  · intro h0
    simp only [Nat.lt_irrefl, h0, reduceIte]
  · intro hpos
    simp only [hpos, reduceIte]
  · intro g hg
    by_cases hpos : 0 < frameSize i
    · simp only [hpos, reduceIte] at hg
      rw [← Option.some.inj hg]
      exact hpos
    · simp only [hpos, reduceIte] at hg
      exact Option.noConfusion hg

/-- Witness for C10 at a Streaming session with a non-empty temperature slot
and an empty visible slot. -/
theorem capture_frame_normalizes_empty_witness :
    cam_is_streaming (⟨CamState.Streaming, true⟩ : WState).cam = true ∧
    capture_frame ⟨CamState.Streaming, true⟩ [[17480]] [] =
      Except.ok (some [[17480]], none) ∧
    (0 < frameSize [[17480]] →
      (some [[17480]], (none : Option ImgFrame)).1 = some [[17480]]) ∧
    (frameSize ([] : ImgFrame) = 0 →
      (some [[17480]], (none : Option ImgFrame)).2 = none) :=
  ⟨rfl, rfl,
   (capture_frame_normalizes_empty ⟨CamState.Streaming, true⟩ [[17480]] []
     (some [[17480]], none) rfl rfl).2.1,
   (capture_frame_normalizes_empty ⟨CamState.Streaming, true⟩ [[17480]] []
     (some [[17480]], none) rfl rfl).2.2.2.1⟩
